import Mathlib

/-!
Verification of the ocore-wallet-service wallet-coordination engine.

This development shallowly embeds the parts of the service that govern the
transaction-proposal life cycle, wallet formation, address gap limits, UTXO
reservation, authentication and the blockchain monitor, and proves (or
refutes) the stated properties against those embeddings.

Source files referenced throughout:
- `lib/server.js` (WalletService)
- `lib/model/txproposal.js` (TxProposal)
- `lib/model/wallet.js` (Wallet)
- `lib/common/defaults.js` (Defaults)
- `lib/blockchainmonitor.js` (BlockchainMonitor)

Machine integers are modelled as `Nat`/`Int` (timestamps in seconds fit well
within JS safe-integer range); JS truthiness on possibly-absent fields is
modelled explicitly with `Option` where it matters.
-/

namespace OWS

/-! ### Defaults (lib/common/defaults.js) -/

namespace Defaults

def MAX_KEYS : Nat := 100

/-- Time after which a tx proposal can be erased by any copayer, in seconds. -/
def DELETE_LOCKTIME : Nat := 600

/-- Allowed consecutive txp rejections before backoff is applied. -/
def BACKOFF_OFFSET : Nat := 10

/-- Time a copayer needs to wait to create a new tx after her previous
proposal was rejected, in seconds. -/
def BACKOFF_TIME : Nat := 600

def MAX_MAIN_ADDRESS_GAP : Nat := 20

end Defaults

/-! ### Shared basic types -/

/-- Status values a transaction proposal can carry (`txp.status` strings in
the source: 'temporary', 'pending', 'accepted', 'rejected', 'broadcasted'). -/
inductive TxStatus where
  | temporary
  | pending
  | accepted
  | rejected
  | broadcasted
deriving DecidableEq, Repr

/-- `type` field of a proposal action ('accept' / 'reject'). -/
inductive ActionType where
  | accept
  | reject
deriving DecidableEq, Repr

/-- One entry of `txp.actions` (lib/model/txproposalaction.js), restricted to
the fields the verified properties depend on. -/
structure TxpAction where
  copayerId : String
  type : ActionType
deriving DecidableEq, Repr

/-- Error codes surfaced by the service (lib/errors/errordefinitions.js),
restricted to the codes used by the embedded operations.  `NOT_AUTHORIZED`
carries its sub-message; `hubError` carries the raw error returned by the
hub on a failed broadcast. -/
inductive ErrorCode where
  | UNAVAILABLE_UTXOS
  | TX_ALREADY_BROADCASTED
  | TX_NOT_ACCEPTED
  | TX_NOT_PENDING
  | TX_ALREADY_ACCEPTED
  | COPAYER_VOTED
  | BAD_SIGNATURES
  | MAIN_ADDRESS_GAP_REACHED
  | TX_CANNOT_CREATE
  | TX_CANNOT_REMOVE
  | WALLET_FULL
  | COPAYER_IN_WALLET
  | COPAYER_REGISTERED
  | NOT_AUTHORIZED (msg : String)
  | hubError (msg : String)
  | checkStateViolation
deriving DecidableEq, Repr

/-! ### Backoff governor (WalletService.prototype._canCreateTx)

`_canCreateTx` fetches the copayer's most recent `5 + BACKOFF_OFFSET`
proposals (`fetchLastTxs`, newest first), counts the leading run of
'rejected' proposals, and refuses creation while that run exceeds
`BACKOFF_OFFSET` and less than `BACKOFF_TIME` seconds have elapsed since the
most recent proposal. -/

/-- A stored proposal as seen by `_canCreateTx`: only its status and
creation timestamp matter. -/
structure TxRecord where
  status : TxStatus
  createdOn : Nat
deriving DecidableEq, Repr

/-- Embedding of `WalletService.prototype._canCreateTx` (lib/server.js).
`txs` is the copayer's full proposal history, newest first; the storage
fetch limit `5 + BACKOFF_OFFSET` is applied with `List.take`.  Returns
`true` when creation is allowed. -/
def canCreateTx (txs : List TxRecord) (now : Int) : Bool :=
  let fetched := txs.take (5 + Defaults.BACKOFF_OFFSET)
  if fetched.length = 0 then true
  else
    let lastRejections := fetched.takeWhile (fun t => t.status = TxStatus.rejected)
    let exceededRejections : Int := (lastRejections.length : Int) - (Defaults.BACKOFF_OFFSET : Int)
    if exceededRejections ≤ 0 then true
    else
      let lastTxTs : Int := ((fetched.head?.map (fun t => t.createdOn)).getD 0 : Nat)
      let timeSinceLastRejection := now - lastTxTs
      decide (timeSinceLastRejection > (Defaults.BACKOFF_TIME : Int))

/-- Modelled from the spec: the backoff governor as worded by the claim,
which says the engine inspects the copayer's last **five** proposals (the
source inspects the last `5 + BACKOFF_OFFSET`).  Identical to `canCreateTx`
except for the fetch limit; used only to compare the claim's wording with
the source. -/
def canCreateTxSpecFive (txs : List TxRecord) (now : Int) : Bool :=
  let fetched := txs.take 5
  if fetched.length = 0 then true
  else
    let lastRejections := fetched.takeWhile (fun t => t.status = TxStatus.rejected)
    let exceededRejections : Int := (lastRejections.length : Int) - (Defaults.BACKOFF_OFFSET : Int)
    if exceededRejections ≤ 0 then true
    else
      let lastTxTs : Int := ((fetched.head?.map (fun t => t.createdOn)).getD 0 : Nat)
      let timeSinceLastRejection := now - lastTxTs
      decide (timeSinceLastRejection > (Defaults.BACKOFF_TIME : Int))

/-! ### Proposal removal (WalletService.prototype.getRemainingDeleteLockTime,
WalletService.prototype.removeTx) -/

/-- A stored proposal as seen by `removeTx`: creator, creation time, status
and the recorded actions. -/
structure TxpRemovable where
  creatorId : String
  createdOn : Nat
  status : TxStatus
  actions : List TxpAction
deriving DecidableEq, Repr

/-- `TxProposal.prototype.getApprovers`: copayer ids of 'accept' actions. -/
def getApprovers (actions : List TxpAction) : List String :=
  (actions.filter (fun a => a.type = ActionType.accept)).map (fun a => a.copayerId)

/-- Embedding of `WalletService.prototype.getRemainingDeleteLockTime`
(lib/server.js).  `selfId` is the requesting copayer, `now` the current
time in seconds. -/
def getRemainingDeleteLockTime (txp : TxpRemovable) (selfId : String) (now : Int) : Int :=
  let lockTimeRemaining : Int := (txp.createdOn : Int) + (Defaults.DELETE_LOCKTIME : Int) - now
  if lockTimeRemaining < 0 then 0
  else if txp.creatorId ≠ selfId then lockTimeRemaining
  else
    let approvers := getApprovers txp.actions
    if approvers.length > 1 ∨ (approvers.length = 1 ∧ approvers.head? ≠ some selfId) then
      lockTimeRemaining
    else 0

/-- Embedding of the decision core of `WalletService.prototype.removeTx`
(lib/server.js): a broadcasted proposal cannot be removed, a positive
remaining delete-lock time blocks removal, otherwise the proposal is
removed from storage. -/
def removeTx (txp : TxpRemovable) (selfId : String) (now : Int) : Except ErrorCode Unit :=
  if txp.status = TxStatus.broadcasted then Except.error ErrorCode.TX_CANNOT_REMOVE
  else if getRemainingDeleteLockTime txp selfId now > 0 then Except.error ErrorCode.TX_CANNOT_REMOVE
  else Except.ok ()

/-! ### Theorems for the backoff governor (claim C7) -/

/-- C7: the claim as stated is false against the source.  The claim says the
engine inspects the copayer's last **five** proposals and arms the backoff
when the consecutive trailing rejections among them exceed `BACKOFF_OFFSET`
(10); among five proposals the trailing-rejection count can never exceed 10,
so under the claim's reading creation would always be allowed.  The source
fetches the last `5 + BACKOFF_OFFSET = 15` proposals.  Concretely, for a
copayer whose last 11 proposals were all rejected at time 1000, the code
refuses creation at time 1000 while the claim's five-proposal reading allows
it. -/
theorem backoff_last_five_counterexample :
    canCreateTx (List.replicate 11 ⟨TxStatus.rejected, 1000⟩) 1000 = false ∧
    canCreateTxSpecFive (List.replicate 11 ⟨TxStatus.rejected, 1000⟩) 1000 = true := by
  constructor
  · rfl
  · rfl

/-- C7 (amended): the engine inspects the copayer's last `5 + BACKOFF_OFFSET`
proposals (newest first); creation is refused exactly when the run of
consecutive trailing 'rejected' proposals exceeds `BACKOFF_OFFSET` and at
most `BACKOFF_TIME` seconds have elapsed since the most recent proposal
(which, the run being non-empty, is the most recent rejection); the backoff
clears whenever the most recent proposal has a non-rejected outcome. -/
theorem backoff_governor_characterization (txs : List TxRecord) (now : Int) :
    (canCreateTx txs now = false ↔
      (Defaults.BACKOFF_OFFSET <
        ((txs.take (5 + Defaults.BACKOFF_OFFSET)).takeWhile
          (fun t => t.status = TxStatus.rejected)).length ∧
        now - ((((txs.take (5 + Defaults.BACKOFF_OFFSET)).head?.map
          (fun t => t.createdOn)).getD 0 : Nat) : Int) ≤ (Defaults.BACKOFF_TIME : Int))) ∧
    (∀ t, (txs.take (5 + Defaults.BACKOFF_OFFSET)).head? = some t →
      t.status ≠ TxStatus.rejected → canCreateTx txs now = true) ∧
    (∀ t, (txs.take (5 + Defaults.BACKOFF_OFFSET)).head? = some t →
      Defaults.BACKOFF_OFFSET <
        ((txs.take (5 + Defaults.BACKOFF_OFFSET)).takeWhile
          (fun t => t.status = TxStatus.rejected)).length →
      t.status = TxStatus.rejected) := by
  refine ⟨?_, ?_, ?_⟩
  · unfold canCreateTx
    by_cases h0 : (txs.take (5 + Defaults.BACKOFF_OFFSET)).length = 0
    · have hnil : txs.take (5 + Defaults.BACKOFF_OFFSET) = [] := List.length_eq_zero.mp h0
      have hw : ((txs.take (5 + Defaults.BACKOFF_OFFSET)).takeWhile
          (fun t => t.status = TxStatus.rejected)).length = 0 := by
        rw [hnil]; rfl
      simp only [h0, if_pos rfl, hw]
      constructor
      · intro h; exact absurd h (by simp)
      · intro h; omega
    · simp only [if_neg h0]
      by_cases h1 : ((((txs.take (5 + Defaults.BACKOFF_OFFSET)).takeWhile
          (fun t => t.status = TxStatus.rejected)).length : Int) -
            (Defaults.BACKOFF_OFFSET : Int) ≤ 0)
      · simp only [if_pos h1]
        constructor
        · intro h; exact absurd h (by simp)
        · intro h; omega
      · simp only [if_neg h1]
        constructor
        · intro h
          have h2 := of_decide_eq_false h
          constructor
          · omega
          · omega
        · intro h
          apply decide_eq_false
          omega
  · intro t ht hnr
    unfold canCreateTx
    have hw : ((txs.take (5 + Defaults.BACKOFF_OFFSET)).takeWhile
        (fun t => t.status = TxStatus.rejected)) = [] := by
      cases hf : txs.take (5 + Defaults.BACKOFF_OFFSET) with
      | nil => simp
      | cons a l =>
        rw [hf] at ht
        simp only [List.head?_cons, Option.some.injEq] at ht
        subst ht
        simp [List.takeWhile_cons, hnr]
    simp [hw]
  · intro t ht hlen
    by_contra hnr
    have hw : ((txs.take (5 + Defaults.BACKOFF_OFFSET)).takeWhile
        (fun t => t.status = TxStatus.rejected)) = [] := by
      cases hf : txs.take (5 + Defaults.BACKOFF_OFFSET) with
      | nil => simp
      | cons a l =>
        rw [hf] at ht
        simp only [List.head?_cons, Option.some.injEq] at ht
        subst ht
        simp [List.takeWhile_cons, hnr]
    rw [hw] at hlen
    simp at hlen

/-- C7 witness: a copayer whose most recent proposal was accepted may create
a new proposal immediately. -/
theorem backoff_governor_witness :
    canCreateTx [⟨TxStatus.accepted, 500⟩] 501 = true := by
  exact (backoff_governor_characterization [⟨TxStatus.accepted, 500⟩] 501).2.1
    ⟨TxStatus.accepted, 500⟩ rfl (by decide)

/-! ### Theorems for proposal removal (claim C8) -/

/-- C8: the claim as stated is false against the source.  The claim says
that once another copayer has signed, removal by anyone is refused until a
24-hour cooldown measured from the foreign action has elapsed.  In the
source `DELETE_LOCKTIME` is 600 seconds, not 24 hours, and
`getRemainingDeleteLockTime` measures it from the proposal's `createdOn`,
not from the foreign action.  Concretely: a proposal created at time 0 by
copayer A, signed by copayer B, is removed successfully by B at time 601 —
under the claim, removal would still be refused (601 s < 24 h from any
action). -/
theorem delete_locktime_counterexample :
    removeTx ⟨"A", 0, TxStatus.pending, [⟨"B", ActionType.accept⟩]⟩ "B" 601 = Except.ok () ∧
    Defaults.DELETE_LOCKTIME = 600 ∧ Defaults.DELETE_LOCKTIME ≠ 24 * 3600 := by
  refine ⟨rfl, rfl, by decide⟩

/-- Helper: the source's "has other approvers" test
(`approvers.length > 1 || (approvers.length == 1 && approvers[0] !== this.copayerId)`)
fails exactly when the approver list is empty or contains just the caller. -/
theorem approvers_cond_iff (l : List String) (s : String) :
    (¬(l.length > 1 ∨ (l.length = 1 ∧ l.head? ≠ some s))) ↔ (l = [] ∨ l = [s]) := by
  cases l with
  | nil => simp
  | cons a t =>
    cases t with
    | nil => simp
    | cons b u => simp

/-- Helper: the delete-lock time is positive exactly while the 600-second
window from the proposal's creation is open and the caller is either not
the creator or blocked by a foreign approver. -/
theorem remaining_pos_iff (txp : TxpRemovable) (selfId : String) (now : Int) :
    0 < getRemainingDeleteLockTime txp selfId now ↔
      (now < (txp.createdOn : Int) + (Defaults.DELETE_LOCKTIME : Int) ∧
        (txp.creatorId ≠ selfId ∨
          ¬(getApprovers txp.actions = [] ∨ getApprovers txp.actions = [selfId]))) := by
  unfold getRemainingDeleteLockTime
  by_cases h1 : (txp.createdOn : Int) + (Defaults.DELETE_LOCKTIME : Int) - now < 0
  · simp only [if_pos h1]
    constructor
    · intro h; omega
    · rintro ⟨h, -⟩; omega
  · simp only [if_neg h1]
    by_cases h2 : txp.creatorId ≠ selfId
    · simp only [if_pos h2]
      constructor
      · intro h; exact ⟨by omega, Or.inl h2⟩
      · rintro ⟨h, -⟩; omega
    · simp only [if_neg h2]
      push_neg at h2
      by_cases h3 : (getApprovers txp.actions).length > 1 ∨
          ((getApprovers txp.actions).length = 1 ∧
            (getApprovers txp.actions).head? ≠ some selfId)
      · simp only [if_pos h3]
        constructor
        · intro h
          refine ⟨by omega, Or.inr ?_⟩
          intro hgood
          exact (approvers_cond_iff (getApprovers txp.actions) selfId).mpr hgood h3
        · rintro ⟨h, -⟩; omega
      · simp only [if_neg h3]
        constructor
        · intro h; omega
        · rintro ⟨h, hor⟩
          exfalso
          rcases hor with hne | hbad
          · exact hne h2
          · exact hbad ((approvers_cond_iff (getApprovers txp.actions) selfId).mp h3)

/-- C8 (amended): a broadcasted proposal can never be removed; a
non-broadcasted proposal is removable exactly when either the
`DELETE_LOCKTIME` cooldown of 600 seconds measured from the proposal's
creation has elapsed (then anyone may remove it), or the caller is the
creator and no other copayer has signed (an accept action) — foreign
rejections do not block the creator. -/
theorem removeTx_characterization (txp : TxpRemovable) (selfId : String) (now : Int) :
    removeTx txp selfId now = Except.ok () ↔
      (txp.status ≠ TxStatus.broadcasted ∧
        ((txp.createdOn : Int) + (Defaults.DELETE_LOCKTIME : Int) ≤ now ∨
          (txp.creatorId = selfId ∧
            (getApprovers txp.actions = [] ∨ getApprovers txp.actions = [selfId])))) := by
  unfold removeTx
  by_cases hb : txp.status = TxStatus.broadcasted
  · simp [hb]
  · simp only [if_neg hb]
    by_cases hr : getRemainingDeleteLockTime txp selfId now > 0
    · simp only [if_pos hr]
      obtain ⟨h1, h2⟩ := (remaining_pos_iff txp selfId now).mp hr
      constructor
      · intro hcontra; exact absurd hcontra (by simp)
      · rintro ⟨-, hA | ⟨hc, hgood⟩⟩
        · omega
        · exfalso
          rcases h2 with hne | hbad
          · exact hne hc
          · exact hbad hgood
    · simp only [if_neg hr]
      simp only [gt_iff_lt] at hr
      rw [remaining_pos_iff] at hr
      push_neg at hr
      constructor
      · intro h
        refine ⟨hb, ?_⟩
        by_cases h1 : (txp.createdOn : Int) + (Defaults.DELETE_LOCKTIME : Int) ≤ now
        · exact Or.inl h1
        · push_neg at h1
          exact Or.inr (hr h1)
      · intro h
        trivial

/-! ### Proposal life cycle (lib/model/txproposal.js, guards from
lib/server.js `signTx` / `rejectTx` / `broadcastTx`)

The draft unit is abstracted to an opaque payload string; the unit hash
(`ObjectHash.getUnitHash`) only matters through its presence in `txid`. -/

/-- A transaction proposal, restricted to the fields the quorum invariant
depends on.  `requiredSignatures` and `requiredRejections` are stored
fields, set at creation from the wallet's `m` and `n` exactly as
`TxProposal.create` does. -/
structure TxProposal where
  walletM : Nat
  walletN : Nat
  requiredSignatures : Nat
  requiredRejections : Nat
  status : TxStatus
  actions : List TxpAction
  txid : Option String
  unitPayload : String
deriving DecidableEq, Repr

/-- Abstract stand-in for `ObjectHash.getUnitHash` (ocore/object_hash): the
verified properties use only that it returns some string computed from the
unit. -/
def getUnitHash (u : String) : String := "unit-hash:" ++ u

/-- Count the actions of a given type (lodash `_.countBy(actions, 'type')`). -/
def countType (l : List TxpAction) (t : ActionType) : Nat :=
  (l.filter (fun a => a.type = t)).length

/-- `TxProposal.prototype.isAccepted`.  lodash `countBy` yields no `accept`
key when there are no accept actions, and in JS `undefined >= m` is false;
hence the explicit non-zero conjunct. -/
def TxProposal.isAccepted (txp : TxProposal) : Bool :=
  decide (countType txp.actions ActionType.accept ≠ 0 ∧
    txp.requiredSignatures ≤ countType txp.actions ActionType.accept)

/-- `TxProposal.prototype.isRejected` (same `countBy` semantics). -/
def TxProposal.isRejected (txp : TxProposal) : Bool :=
  decide (countType txp.actions ActionType.reject ≠ 0 ∧
    txp.requiredRejections ≤ countType txp.actions ActionType.reject)

/-- `TxProposal.prototype.isPending`:
`!_.includes(['temporary', 'broadcasted', 'rejected'], this.status)`. -/
def TxProposal.isPending (txp : TxProposal) : Bool :=
  decide (¬(txp.status = TxStatus.temporary ∨ txp.status = TxStatus.broadcasted ∨
    txp.status = TxStatus.rejected))

/-- `TxProposal.prototype._updateStatus`: only a 'pending' proposal moves,
and the rejection test is applied before the acceptance test. -/
def TxProposal.updateStatus (txp : TxProposal) : TxProposal :=
  if txp.status ≠ TxStatus.pending then txp
  else if txp.isRejected then { txp with status := TxStatus.rejected }
  else if txp.isAccepted then { txp with status := TxStatus.accepted }
  else txp

/-- `TxProposal.prototype.addAction`: push the action, then `_updateStatus`. -/
def TxProposal.addAction (txp : TxProposal) (copayerId : String) (t : ActionType) : TxProposal :=
  TxProposal.updateStatus { txp with actions := txp.actions ++ [⟨copayerId, t⟩] }

/-- The successful-verification path of `TxProposal.prototype.sign`: record
the accept action and, if the proposal just became 'accepted', compute the
unit hash and set `txid`. -/
def TxProposal.sign (txp : TxProposal) (copayerId : String) : TxProposal :=
  let t := txp.addAction copayerId ActionType.accept
  if t.status = TxStatus.accepted then
    { t with txid := some (getUnitHash t.unitPayload) }
  else t

/-- `TxProposal.prototype.reject`. -/
def TxProposal.reject (txp : TxProposal) (copayerId : String) : TxProposal :=
  txp.addAction copayerId ActionType.reject

/-- A proposal as created by `TxProposal.create` for an m-of-n wallet
(status 'temporary', no actions, `requiredSignatures = walletM`,
`requiredRejections = Math.min(walletM, walletN - walletM + 1)`) and then
published by `WalletService.prototype.publishTx` (status set to 'pending';
a temporary proposal has no actions and no txid). -/
def initTxp (m n : Nat) (u : String) : TxProposal :=
  { walletM := m
    walletN := n
    requiredSignatures := m
    requiredRejections := Nat.min m (n - m + 1)
    status := TxStatus.pending
    actions := []
    txid := none
    unitPayload := u }

/-- One engine-mediated mutation of a stored proposal, with exactly the
guards the service applies:
- `sign` (`WalletService.prototype.signTx`): the copayer has not acted
  (`COPAYER_VOTED`), the proposal `isPending` (`TX_NOT_PENDING`) and is not
  already accepted (`TX_ALREADY_ACCEPTED`);
- `reject` (`WalletService.prototype.rejectTx`): the copayer has not acted
  and the status is exactly 'pending' (`TX_NOT_PENDING`);
- `broadcast` (`WalletService.prototype.broadcastTx` on hub success or
  ledger-confirmed third-party broadcast, via `setBroadcasted`): status is
  not 'broadcasted' (`TX_ALREADY_BROADCASTED`), is 'accepted'
  (`TX_NOT_ACCEPTED`), and `txid` is set (`$.checkState`). -/
inductive TxpStep : TxProposal → TxProposal → Prop where
  | sign (txp : TxProposal) (copayerId : String) :
      txp.actions.find? (fun a => a.copayerId = copayerId) = none →
      txp.isPending = true →
      txp.isAccepted = false →
      TxpStep txp (txp.sign copayerId)
  | reject (txp : TxProposal) (copayerId : String) :
      txp.actions.find? (fun a => a.copayerId = copayerId) = none →
      txp.status = TxStatus.pending →
      TxpStep txp (txp.reject copayerId)
  | broadcast (txp : TxProposal) :
      txp.status = TxStatus.accepted →
      txp.txid.isSome = true →
      TxpStep txp { txp with status := TxStatus.broadcasted }

/-- Proposals reachable through the engine: published from a freshly created
draft of an m-of-n wallet (`Wallet.create` enforces `0 < m ∧ m ≤ n`), then
mutated only through guarded engine steps. -/
inductive ReachableTxp : TxProposal → Prop where
  | published (m n : Nat) (u : String) :
      1 ≤ m → m ≤ n → ReachableTxp (initTxp m n u)
  | step (a b : TxProposal) : ReachableTxp a → TxpStep a b → ReachableTxp b

/-- The inductive invariant carried by every reachable proposal. -/
def TxpInv (txp : TxProposal) : Prop :=
  1 ≤ txp.walletM ∧ txp.walletM ≤ txp.walletN ∧
  txp.requiredSignatures = txp.walletM ∧
  txp.requiredRejections = Nat.min txp.walletM (txp.walletN - txp.walletM + 1) ∧
  txp.status ≠ TxStatus.temporary ∧
  ((txp.status = TxStatus.accepted ∨ txp.status = TxStatus.broadcasted) ↔
    txp.requiredSignatures ≤ countType txp.actions ActionType.accept) ∧
  (txp.status = TxStatus.rejected ↔
    txp.requiredRejections ≤ countType txp.actions ActionType.reject) ∧
  ((txp.status = TxStatus.accepted ∨ txp.status = TxStatus.broadcasted) →
    txp.txid.isSome = true)

/-- Appending one action adds one to the count of its own type and leaves
the other type's count unchanged. -/
theorem countType_append (l : List TxpAction) (a : TxpAction) (t : ActionType) :
    countType (l ++ [a]) t = countType l t + (if a.type = t then 1 else 0) := by
  by_cases h : a.type = t <;> simp [countType, List.filter_append, h]

theorem countType_append_same (l : List TxpAction) (c : String) (t : ActionType) :
    countType (l ++ [⟨c, t⟩]) t = countType l t + 1 := by
  simp [countType_append]

theorem countType_append_other (l : List TxpAction) (c : String) (t t' : ActionType)
    (h : ¬t = t') : countType (l ++ [⟨c, t⟩]) t' = countType l t' := by
  simp [countType_append, h]

/-- Shape of `addAction _ accept` on a pending proposal whose rejection
quorum has not been reached. -/
theorem addAction_accept_pending (a : TxProposal) (c : String)
    (hst : a.status = TxStatus.pending)
    (hrejlt : countType a.actions ActionType.reject < a.requiredRejections) :
    a.addAction c ActionType.accept =
      (if a.requiredSignatures ≤ countType a.actions ActionType.accept + 1 then
        { a with actions := a.actions ++ [⟨c, ActionType.accept⟩],
                 status := TxStatus.accepted }
      else
        { a with actions := a.actions ++ [⟨c, ActionType.accept⟩] }) := by
  unfold TxProposal.addAction TxProposal.updateStatus
  have hR : TxProposal.isRejected
      { a with status := TxStatus.pending,
               actions := a.actions ++ [⟨c, ActionType.accept⟩] } = false := by
    simp only [TxProposal.isRejected,
      countType_append_other a.actions c ActionType.accept ActionType.reject (by decide)]
    simp only [decide_eq_false_iff_not]
    intro hcon
    obtain ⟨-, hcon2⟩ := hcon
    omega
  have hA : TxProposal.isAccepted
      { a with status := TxStatus.pending,
               actions := a.actions ++ [⟨c, ActionType.accept⟩] } =
      decide (a.requiredSignatures ≤ countType a.actions ActionType.accept + 1) := by
    simp only [TxProposal.isAccepted, countType_append_same]
    by_cases h : a.requiredSignatures ≤ countType a.actions ActionType.accept + 1
    · simp [h]
    · simp [h]
  simp only [hst]
  simp only [hR, hA]
  by_cases h : a.requiredSignatures ≤ countType a.actions ActionType.accept + 1
  · simp [h]
  · simp [h]

/-- Shape of `addAction _ reject` on a pending proposal whose acceptance
quorum has not been reached. -/
theorem addAction_reject_pending (a : TxProposal) (c : String)
    (hst : a.status = TxStatus.pending)
    (hacclt : countType a.actions ActionType.accept < a.requiredSignatures) :
    a.addAction c ActionType.reject =
      (if a.requiredRejections ≤ countType a.actions ActionType.reject + 1 then
        { a with actions := a.actions ++ [⟨c, ActionType.reject⟩],
                 status := TxStatus.rejected }
      else
        { a with actions := a.actions ++ [⟨c, ActionType.reject⟩] }) := by
  unfold TxProposal.addAction TxProposal.updateStatus
  have hR : TxProposal.isRejected
      { a with status := TxStatus.pending,
               actions := a.actions ++ [⟨c, ActionType.reject⟩] } =
      decide (a.requiredRejections ≤ countType a.actions ActionType.reject + 1) := by
    simp only [TxProposal.isRejected, countType_append_same]
    by_cases h : a.requiredRejections ≤ countType a.actions ActionType.reject + 1
    · simp [h]
    · simp [h]
  have hA : TxProposal.isAccepted
      { a with status := TxStatus.pending,
               actions := a.actions ++ [⟨c, ActionType.reject⟩] } = false := by
    simp only [TxProposal.isAccepted,
      countType_append_other a.actions c ActionType.reject ActionType.accept (by decide)]
    simp only [decide_eq_false_iff_not]
    intro hcon
    obtain ⟨-, hcon2⟩ := hcon
    omega
  simp only [hst]
  simp only [hR, hA]
  by_cases h : a.requiredRejections ≤ countType a.actions ActionType.reject + 1
  · simp [h]
  · simp [h]

/-- Shape of a successful `sign` on a pending proposal whose rejection
quorum has not been reached: the accept action is recorded and, exactly
when this accept reaches the quorum, the status flips to 'accepted' and
`txid` is set to the unit hash. -/
theorem sign_pending (a : TxProposal) (c : String)
    (hst : a.status = TxStatus.pending)
    (hrejlt : countType a.actions ActionType.reject < a.requiredRejections) :
    a.sign c =
      (if a.requiredSignatures ≤ countType a.actions ActionType.accept + 1 then
        { a with actions := a.actions ++ [⟨c, ActionType.accept⟩],
                 status := TxStatus.accepted,
                 txid := some (getUnitHash a.unitPayload) }
      else
        { a with actions := a.actions ++ [⟨c, ActionType.accept⟩] }) := by
  unfold TxProposal.sign
  rw [addAction_accept_pending a c hst hrejlt]
  by_cases h : a.requiredSignatures ≤ countType a.actions ActionType.accept + 1
  · simp [h]
  · simp [h, hst]

/-- Every reachable proposal satisfies `TxpInv`. -/
theorem txpInv_of_reachable (txp : TxProposal) (h : ReachableTxp txp) : TxpInv txp := by
  induction h with
  | published m n u hm hmn =>
    unfold TxpInv
    refine ⟨hm, hmn, rfl, rfl, by simp [initTxp], ?_, ?_, by simp [initTxp]⟩
    · show (TxStatus.pending = TxStatus.accepted ∨ TxStatus.pending = TxStatus.broadcasted) ↔
        m ≤ 0
      constructor
      · rintro (h | h) <;> simp at h
      · intro h; exfalso; omega
    · show TxStatus.pending = TxStatus.rejected ↔ Nat.min m (n - m + 1) ≤ 0
      constructor
      · intro h; simp at h
      · intro h
        exfalso
        have hx : 1 ≤ Nat.min m (n - m + 1) := le_min hm (by omega)
        omega
  | step a b ha hstep ih =>
    obtain ⟨h1, h2, h3, h4, h5, hacc, hrej, htxid⟩ := ih
    cases hstep with
    | sign c hfind hpend hnacc =>
      simp only [TxProposal.isPending, decide_eq_true_eq] at hpend
      push_neg at hpend
      obtain ⟨hp1, hp2, hp3⟩ := hpend
      simp only [TxProposal.isAccepted, decide_eq_false_iff_not] at hnacc
      have hacclt : countType a.actions ActionType.accept < a.requiredSignatures := by
        by_contra hcon
        push_neg at hcon
        have hne : countType a.actions ActionType.accept ≠ 0 := by omega
        exact hnacc ⟨hne, hcon⟩
      have hstat : a.status = TxStatus.pending := by
        cases hs : a.status with
        | temporary => exact absurd hs hp1
        | pending => rfl
        | accepted =>
          have := hacc.mp (Or.inl hs)
          exfalso; omega
        | rejected => exact absurd hs hp3
        | broadcasted => exact absurd hs hp2
      have hrejlt : countType a.actions ActionType.reject < a.requiredRejections := by
        by_contra hcon
        push_neg at hcon
        have hx := hrej.mpr hcon
        simp [hstat] at hx
      rw [sign_pending a c hstat hrejlt]
      by_cases hfin : a.requiredSignatures ≤ countType a.actions ActionType.accept + 1
      · rw [if_pos hfin]
        refine ⟨h1, h2, h3, h4, by simp, ?_, ?_, by simp⟩
        · simp only [countType_append_same]
          constructor
          · intro _; exact hfin
          · intro _; left; trivial
        · simp only
            [countType_append_other a.actions c ActionType.accept ActionType.reject (by decide)]
          constructor
          · intro hx; simp at hx
          · intro hx; exfalso; omega
      · rw [if_neg hfin]
        refine ⟨h1, h2, h3, h4, by simp [hstat], ?_, ?_, ?_⟩
        · simp only [countType_append_same]
          constructor
          · rintro (hx | hx) <;> simp [hstat] at hx
          · intro hx; exfalso; omega
        · simp only
            [countType_append_other a.actions c ActionType.accept ActionType.reject (by decide)]
          constructor
          · intro hx; simp [hstat] at hx
          · intro hx; exfalso; omega
        · rintro (hx | hx) <;> simp [hstat] at hx
    | reject c hfind hstat =>
      have hacclt : countType a.actions ActionType.accept < a.requiredSignatures := by
        by_contra hcon
        push_neg at hcon
        have hx := hacc.mpr hcon
        rcases hx with hx | hx <;> simp [hstat] at hx
      have hrejlt : countType a.actions ActionType.reject < a.requiredRejections := by
        by_contra hcon
        push_neg at hcon
        have hx := hrej.mpr hcon
        simp [hstat] at hx
      unfold TxProposal.reject
      rw [addAction_reject_pending a c hstat hacclt]
      by_cases hfin : a.requiredRejections ≤ countType a.actions ActionType.reject + 1
      · rw [if_pos hfin]
        refine ⟨h1, h2, h3, h4, by simp, ?_, ?_, ?_⟩
        · simp only
            [countType_append_other a.actions c ActionType.reject ActionType.accept (by decide)]
          constructor
          · rintro (hx | hx) <;> simp at hx
          · intro hx; exfalso; omega
        · simp only [countType_append_same]
          constructor
          · intro _; exact hfin
          · intro _; trivial
        · rintro (hx | hx) <;> simp at hx
      · rw [if_neg hfin]
        refine ⟨h1, h2, h3, h4, by simp [hstat], ?_, ?_, ?_⟩
        · simp only
            [countType_append_other a.actions c ActionType.reject ActionType.accept (by decide)]
          constructor
          · rintro (hx | hx) <;> simp [hstat] at hx
          · intro hx; exfalso; omega
        · simp only [countType_append_same]
          constructor
          · intro hx; simp [hstat] at hx
          · intro hx; exfalso; omega
        · rintro (hx | hx) <;> simp [hstat] at hx
    | broadcast hacc0 htx =>
      refine ⟨h1, h2, h3, h4, by simp, ?_, ?_, fun _ => htx⟩
      · constructor
        · intro _; exact hacc.mp (Or.inl hacc0)
        · intro _; exact Or.inr rfl
      · constructor
        · intro hx; simp at hx
        · intro hx
          have hy := hrej.mpr hx
          rw [hacc0] at hy
          exact absurd hy (by simp)

/-- C2: for every reachable transaction proposal of an m-of-n wallet, the
proposal has reached 'accepted' (it is 'accepted', or 'broadcasted' which
only an accepted proposal can become) if and only if the number of 'accept'
actions is at least m; at the moment it becomes accepted its txid is set
(computed as the unit hash, and never cleared afterwards); and it is
'rejected' if and only if the number of 'reject' actions is at least
`requiredRejections = min(m, n - m + 1)`. -/
theorem quorum_invariant (txp : TxProposal) (h : ReachableTxp txp) :
    ((txp.status = TxStatus.accepted ∨ txp.status = TxStatus.broadcasted) ↔
      txp.walletM ≤ countType txp.actions ActionType.accept) ∧
    (txp.status = TxStatus.accepted → txp.txid.isSome = true) ∧
    (txp.status = TxStatus.rejected ↔
      Nat.min txp.walletM (txp.walletN - txp.walletM + 1) ≤
        countType txp.actions ActionType.reject) := by
  obtain ⟨h1, h2, h3, h4, h5, hacc, hrej, htxid⟩ := txpInv_of_reachable txp h
  refine ⟨?_, ?_, ?_⟩
  · rw [← h3]; exact hacc
  · intro hx; exact htxid (Or.inl hx)
  · rw [← h4]; exact hrej

/-- C2 witness: in a 2-of-3 wallet, after two distinct copayers sign a
published proposal, it is accepted and its txid is set. -/
theorem quorum_invariant_witness :
    (((initTxp 2 3 "u").sign "A").sign "B").status = TxStatus.accepted ∧
    (((initTxp 2 3 "u").sign "A").sign "B").txid.isSome = true := by
  have r0 : ReachableTxp (initTxp 2 3 "u") :=
    ReachableTxp.published 2 3 "u" (by decide) (by decide)
  have r1 : ReachableTxp ((initTxp 2 3 "u").sign "A") :=
    ReachableTxp.step _ _ r0 (TxpStep.sign _ "A" (by decide) (by decide) (by decide))
  have hr : ReachableTxp (((initTxp 2 3 "u").sign "A").sign "B") :=
    ReachableTxp.step _ _ r1 (TxpStep.sign _ "B" (by decide) (by decide) (by decide))
  have hq := quorum_invariant _ hr
  refine ⟨by decide, hq.2.1 (by decide)⟩

/-! ### Broadcast (WalletService.prototype.broadcastTx and
_processBroadcast, TxProposal.prototype.setBroadcasted) -/

/-- `TxProposal.prototype.setBroadcasted`: `$.checkState(this.txid)`, then
`status = 'broadcasted'`.  A failed assertion is modelled as an error
(unreachable for engine-produced accepted proposals, by `quorum_invariant`). -/
def setBroadcasted (txp : TxProposal) : Except ErrorCode TxProposal :=
  if txp.txid.isSome then Except.ok { txp with status := TxStatus.broadcasted }
  else Except.error ErrorCode.checkStateViolation

/-- `WalletService.prototype._processBroadcast`: set the proposal
broadcasted, store it, and emit `NewOutgoingTxByThirdParty` or
`NewOutgoingTx` (the emitted notification type is returned). -/
def processBroadcast (txp : TxProposal) (byThirdParty : Bool) :
    Except ErrorCode (TxProposal × String) :=
  (setBroadcasted txp).map (fun t =>
    (t, if byThirdParty then "NewOutgoingTxByThirdParty" else "NewOutgoingTx"))

/-- `WalletService.prototype.broadcastTx`.  `hubResult` is the hub's answer
to `broadcastJoint`; `inLedger` is the explorer's answer on whether the unit
is already in the ledger (`_checkTxInBlockchain`), consulted only after a
hub failure.  An error result means `storage.storeTx` was never called, so
the stored proposal is unchanged. -/
def broadcastTx (txp : TxProposal) (hubResult : Except String Unit) (inLedger : Bool) :
    Except ErrorCode (TxProposal × String) :=
  if txp.status = TxStatus.broadcasted then Except.error ErrorCode.TX_ALREADY_BROADCASTED
  else if txp.status ≠ TxStatus.accepted then Except.error ErrorCode.TX_NOT_ACCEPTED
  else
    match hubResult with
    | Except.ok _ => processBroadcast txp false
    | Except.error e =>
      if inLedger then processBroadcast txp true
      else Except.error (ErrorCode.hubError e)

/-- C4: broadcast behaviour by cases — already-broadcasted proposals fail
with `TX_ALREADY_BROADCASTED`; non-accepted proposals fail with
`TX_NOT_ACCEPTED`; hub success transitions to 'broadcasted' with
`NewOutgoingTx`; hub failure with the unit already in the ledger
transitions to 'broadcasted' with `NewOutgoingTxByThirdParty`; hub failure
with the unit absent returns the hub error and stores nothing, so the
proposal stays 'accepted'. -/
theorem broadcastTx_spec (txp : TxProposal) (hubResult : Except String Unit) (inLedger : Bool) :
    (txp.status = TxStatus.broadcasted →
      broadcastTx txp hubResult inLedger = Except.error ErrorCode.TX_ALREADY_BROADCASTED) ∧
    (txp.status ≠ TxStatus.broadcasted → txp.status ≠ TxStatus.accepted →
      broadcastTx txp hubResult inLedger = Except.error ErrorCode.TX_NOT_ACCEPTED) ∧
    (txp.status = TxStatus.accepted → txp.txid.isSome = true → hubResult = Except.ok () →
      broadcastTx txp hubResult inLedger =
        Except.ok ({ txp with status := TxStatus.broadcasted }, "NewOutgoingTx")) ∧
    (∀ e, txp.status = TxStatus.accepted → txp.txid.isSome = true →
      hubResult = Except.error e → inLedger = true →
      broadcastTx txp hubResult inLedger =
        Except.ok ({ txp with status := TxStatus.broadcasted }, "NewOutgoingTxByThirdParty")) ∧
    (∀ e, txp.status = TxStatus.accepted → hubResult = Except.error e → inLedger = false →
      broadcastTx txp hubResult inLedger = Except.error (ErrorCode.hubError e)) := by
  refine ⟨?_, ?_, ?_, ?_, ?_⟩
  · intro h
    simp [broadcastTx, h]
  · intro h1 h2
    simp [broadcastTx, h1, h2]
  · intro h1 h2 h3
    subst h3
    simp only [broadcastTx, h1, processBroadcast, setBroadcasted, h2]
    simp
    rfl
  · intro e h1 h2 h3 h4
    subst h3 h4
    simp only [broadcastTx, h1, processBroadcast, setBroadcasted, h2]
    simp
    rfl
  · intro e h1 h2 h3
    subst h2 h3
    simp [broadcastTx, h1]

/-- C4 witness: the hub-success branch at a concrete accepted proposal. -/
theorem broadcastTx_spec_witness :
    broadcastTx ⟨1, 1, 1, 1, TxStatus.accepted, [⟨"A", ActionType.accept⟩], some "t", "u"⟩
      (Except.ok ()) false =
      Except.ok (⟨1, 1, 1, 1, TxStatus.broadcasted, [⟨"A", ActionType.accept⟩], some "t", "u"⟩,
        "NewOutgoingTx") := by
  exact (broadcastTx_spec
    ⟨1, 1, 1, 1, TxStatus.accepted, [⟨"A", ActionType.accept⟩], some "t", "u"⟩
    (Except.ok ()) false).2.2.1 (by decide) (by decide) rfl

/-! ### Wallet formation (lib/model/wallet.js, lib/server.js joinWallet and
_addCopayerToWallet) -/

inductive WalletStatus where
  | pending
  | complete
deriving DecidableEq, Repr

/-- A copayer, restricted to the fields wallet formation uses. -/
structure Copayer where
  id : String
  xPubKey : String
  requestPubKey : String
  deviceId : String
  account : Nat
deriving DecidableEq, Repr

/-- One public-key-ring entry:
`_.pick(copayer, ['xPubKey', 'requestPubKey', 'deviceId', 'account'])`. -/
structure PubKeyRingEntry where
  xPubKey : String
  requestPubKey : String
  deviceId : String
  account : Nat
deriving DecidableEq, Repr

/-- A wallet, restricted to the fields wallet formation uses.
`defTemplateSigs` models the list of `["sig", ...]` clauses accumulated in
`definitionTemplate` (one per copayer, keyed by device id). -/
structure Wallet where
  m : Nat
  n : Nat
  status : WalletStatus
  copayers : List Copayer
  publicKeyRing : List PubKeyRingEntry
  defTemplateSigs : List String
deriving DecidableEq, Repr

/-- `Wallet.prototype._updatePublicKeyRing`. -/
def Wallet.updatePublicKeyRing (w : Wallet) : Wallet :=
  { w with publicKeyRing :=
      w.copayers.map (fun c => ⟨c.xPubKey, c.requestPubKey, c.deviceId, c.account⟩) }

/-- `Wallet.prototype.addCopayer`: push the copayer and its sig clause; if
the roster is still short of `n`, stop; otherwise flip the status to
'complete' and freeze the public-key ring. -/
def Wallet.addCopayer (w : Wallet) (c : Copayer) : Wallet :=
  let w1 : Wallet :=
    { w with copayers := w.copayers ++ [c],
             defTemplateSigs :=
               if w.n = 1 then [c.deviceId] else w.defTemplateSigs ++ [c.deviceId] }
  if w1.copayers.length < w1.n then w1
  else Wallet.updatePublicKeyRing { w1 with status := WalletStatus.complete }

/-- `Wallet.prototype.isComplete`. -/
def Wallet.isComplete (w : Wallet) : Bool := w.status = WalletStatus.complete

/-- `Wallet.prototype.isShared`. -/
def Wallet.isShared (w : Wallet) : Bool := 1 < w.n

/-- `Wallet.create`: a fresh pending wallet with empty roster and ring. -/
def createWallet (m n : Nat) : Wallet :=
  { m := m, n := n, status := WalletStatus.pending, copayers := [], publicKeyRing := [],
    defTemplateSigs := [] }

/-- The decision core of `WalletService.prototype.joinWallet` plus
`_addCopayerToWallet`, in source order: duplicate-xpub check
(`COPAYER_IN_WALLET`), roster-full check (`WALLET_FULL`), copayer-lookup
check (`COPAYER_REGISTERED`, with the lookup result passed in as
`alreadyRegistered`), `dryRun` early return, then `addCopayer` and a
`WalletComplete` notification exactly when the stored wallet
`isComplete() && isShared()` (the returned flag). -/
def joinWallet (w : Wallet) (c : Copayer) (alreadyRegistered dryRun : Bool) :
    Except ErrorCode (Wallet × Bool) :=
  if (w.copayers.find? (fun x => x.xPubKey = c.xPubKey)).isSome then
    Except.error ErrorCode.COPAYER_IN_WALLET
  else if w.copayers.length = w.n then Except.error ErrorCode.WALLET_FULL
  else if alreadyRegistered then Except.error ErrorCode.COPAYER_REGISTERED
  else if dryRun then Except.ok (w, false)
  else
    let w1 := w.addCopayer c
    Except.ok (w1, w1.isComplete && w1.isShared)

/-- Wallets reachable through the service: created by `createWallet`
(`Wallet.create` asserts `0 < m ∧ m ≤ n`), then grown only through
successful joins. -/
inductive ReachableWallet : Wallet → Prop where
  | created (m n : Nat) : 1 ≤ m → m ≤ n → ReachableWallet (createWallet m n)
  | joined (w w' : Wallet) (c : Copayer) (reg dry e : Bool) :
      ReachableWallet w → joinWallet w c reg dry = Except.ok (w', e) → ReachableWallet w'

/-- The inductive invariant of reachable wallets. -/
def WalletInv (w : Wallet) : Prop :=
  1 ≤ w.m ∧ w.m ≤ w.n ∧ w.copayers.length ≤ w.n ∧
  (w.status = WalletStatus.complete ↔ w.copayers.length = w.n) ∧
  (w.status = WalletStatus.complete → w.publicKeyRing.length = w.n)

/-- Every reachable wallet satisfies `WalletInv`. -/
theorem walletInv_of_reachable (w : Wallet) (h : ReachableWallet w) : WalletInv w := by
  induction h with
  | created m n hm hmn =>
    refine ⟨hm, hmn, by simp [createWallet], ?_, by intro hx; simp [createWallet] at hx⟩
    constructor
    · intro hx; simp [createWallet] at hx
    · intro hx
      exfalso
      simp [createWallet] at hx
      omega
  | joined w w' c reg dry e hw hj ih =>
    obtain ⟨h1, h2, h3, h4, h5⟩ := ih
    unfold joinWallet at hj
    by_cases hx : (w.copayers.find? (fun x => x.xPubKey = c.xPubKey)).isSome
    · simp [hx] at hj
    · simp only [hx, Bool.false_eq_true, if_false] at hj
      by_cases hfull : w.copayers.length = w.n
      · simp [hfull] at hj
      · simp only [hfull, if_false] at hj
        cases reg with
        | true => simp at hj
        | false =>
          simp only [Bool.false_eq_true, if_false] at hj
          cases dry with
          | true =>
            simp only [if_pos rfl] at hj
            obtain ⟨hw1, -⟩ := Prod.mk.injEq .. ▸ (Except.ok.injEq .. ▸ hj)
            exact hw1 ▸ ⟨h1, h2, h3, h4, h5⟩
          | false =>
            simp only [Bool.false_eq_true, if_false, Except.ok.injEq, Prod.mk.injEq] at hj
            obtain ⟨hw1, -⟩ := hj
            subst hw1
            have hlt : w.copayers.length < w.n := by omega
            unfold Wallet.addCopayer
            by_cases hlt2 : w.copayers.length + 1 < w.n
            · simp only [List.length_append, List.length_cons, List.length_nil]
              rw [if_pos (by simpa using hlt2)]
              refine ⟨h1, h2, by simpa using Nat.le_of_lt hlt2, ?_, ?_⟩
              · constructor
                · intro hx2
                  have : w.status = WalletStatus.complete := hx2
                  have := h4.mp this
                  omega
                · intro hx2
                  simp at hx2
                  omega
              · intro hx2
                have : w.status = WalletStatus.complete := hx2
                have := h4.mp this
                omega
            · simp only [List.length_append, List.length_cons, List.length_nil]
              rw [if_neg (by simpa using hlt2)]
              have hn : w.copayers.length + 1 = w.n := by omega
              refine ⟨h1, h2, ?_, ?_, ?_⟩
              · simp [Wallet.updatePublicKeyRing]
                omega
              · simp only [Wallet.updatePublicKeyRing]
                constructor
                · intro _
                  simp
                  omega
                · intro _; trivial
              · intro _
                simp [Wallet.updatePublicKeyRing]
                omega

/-- C3: for every reachable m-of-n wallet, the status is 'complete' exactly
when the roster holds n copayers, at which point the public-key ring has
exactly n entries; a successful join emits the `WalletComplete`
notification exactly when it is the nth (and not a dry run) and the wallet
is shared (never when n = 1); and once the roster is full every further
join fails, so the notification is emitted at most once. -/
theorem wallet_completion (w : Wallet) (h : ReachableWallet w) :
    ((w.status = WalletStatus.complete ↔ w.copayers.length = w.n) ∧
     (w.status = WalletStatus.complete → w.publicKeyRing.length = w.n)) ∧
    (∀ c reg dry w' emitted, joinWallet w c reg dry = Except.ok (w', emitted) →
      (emitted = true ↔ (w.copayers.length + 1 = w.n ∧ 1 < w.n ∧ dry = false))) ∧
    (w.copayers.length = w.n → ∀ c reg dry w' emitted,
      joinWallet w c reg dry ≠ Except.ok (w', emitted)) := by
  obtain ⟨h1, h2, h3, h4, h5⟩ := walletInv_of_reachable w h
  refine ⟨⟨h4, h5⟩, ?_, ?_⟩
  · intro c reg dry w' emitted hj
    unfold joinWallet at hj
    by_cases hx : (w.copayers.find? (fun x => x.xPubKey = c.xPubKey)).isSome
    · simp [hx] at hj
    · simp only [hx, Bool.false_eq_true, if_false] at hj
      by_cases hfull : w.copayers.length = w.n
      · simp [hfull] at hj
      · simp only [hfull, if_false] at hj
        cases reg with
        | true => simp at hj
        | false =>
          simp only [Bool.false_eq_true, if_false] at hj
          cases dry with
          | true =>
            rw [if_pos rfl] at hj
            injection hj with hj2
            injection hj2 with hw he
            subst he
            simp
          | false =>
            simp only [Bool.false_eq_true, if_false, Except.ok.injEq, Prod.mk.injEq] at hj
            obtain ⟨-, he⟩ := hj
            subst he
            have hstat : w.status = WalletStatus.pending := by
              cases hs : w.status with
              | pending => rfl
              | complete => exact absurd (h4.mp hs) hfull
            unfold Wallet.addCopayer Wallet.isComplete Wallet.isShared
            by_cases hlt2 : w.copayers.length + 1 < w.n
            · simp only [List.length_append, List.length_cons, List.length_nil]
              rw [if_pos (by simpa using hlt2)]
              simp [hstat]
              omega
            · simp only [List.length_append, List.length_cons, List.length_nil]
              rw [if_neg (by simpa using hlt2)]
              have hn : w.copayers.length + 1 = w.n := by omega
              simp [Wallet.updatePublicKeyRing, hn]
  · intro hfull c reg dry w' emitted hj
    unfold joinWallet at hj
    by_cases hx : (w.copayers.find? (fun x => x.xPubKey = c.xPubKey)).isSome
    · simp [hx] at hj
    · simp [hx, hfull] at hj

/-- C3 witness: a 2-of-3 wallet joined by three copayers with distinct
xpubs is complete with a three-entry public-key ring. -/
theorem wallet_completion_witness :
    ((((createWallet 2 3).addCopayer ⟨"i1", "x1", "r1", "d1", 0⟩).addCopayer
        ⟨"i2", "x2", "r2", "d2", 0⟩).addCopayer ⟨"i3", "x3", "r3", "d3", 0⟩).status =
      WalletStatus.complete ∧
    ((((createWallet 2 3).addCopayer ⟨"i1", "x1", "r1", "d1", 0⟩).addCopayer
        ⟨"i2", "x2", "r2", "d2", 0⟩).addCopayer
        ⟨"i3", "x3", "r3", "d3", 0⟩).publicKeyRing.length = 3 := by
  have r0 : ReachableWallet (createWallet 2 3) :=
    ReachableWallet.created 2 3 (by decide) (by decide)
  have r1 : ReachableWallet ((createWallet 2 3).addCopayer ⟨"i1", "x1", "r1", "d1", 0⟩) :=
    ReachableWallet.joined _ _ ⟨"i1", "x1", "r1", "d1", 0⟩ false false false r0 rfl
  have r2 : ReachableWallet (((createWallet 2 3).addCopayer
      ⟨"i1", "x1", "r1", "d1", 0⟩).addCopayer ⟨"i2", "x2", "r2", "d2", 0⟩) :=
    ReachableWallet.joined _ _ ⟨"i2", "x2", "r2", "d2", 0⟩ false false false r1 rfl
  have r3 : ReachableWallet ((((createWallet 2 3).addCopayer
      ⟨"i1", "x1", "r1", "d1", 0⟩).addCopayer ⟨"i2", "x2", "r2", "d2", 0⟩).addCopayer
      ⟨"i3", "x3", "r3", "d3", 0⟩) :=
    ReachableWallet.joined _ _ ⟨"i3", "x3", "r3", "d3", 0⟩ false false true r2 rfl
  have hc := wallet_completion _ r3
  have hcomp := hc.1.1.mpr (by decide)
  exact ⟨hcomp, hc.1.2 hcomp⟩

/-! ### Signature authentication (WalletService.getInstanceWithAuth,
signature path, and WalletService.prototype._getSigningKey)

The ECDSA verification (`Utils.verifyMessage`) is abstracted as a function
parameter `verify : message → signature → pubkey → Bool`; the theorems
quantify over it, so nothing is assumed about the cryptography. -/

/-- A record of the copayer-lookup index
(`{copayerId → walletId, requestPubKeys, isSupportStaff}`); `requestPubKeys`
keeps the `key` field of each history entry, newest first. -/
structure CopayerLookup where
  walletId : String
  requestPubKeys : List String
  isSupportStaff : Bool
deriving DecidableEq, Repr

/-- `WalletService.prototype._getSigningKey`: the first key of the history
under which the signature verifies. -/
def getSigningKey (verify : String → String → String → Bool)
    (message signature : String) (pubKeys : List String) : Option String :=
  pubKeys.find? (fun k => verify message signature k)

/-- JS `opts.walletId || copayer.walletId`: an absent or empty string falls
back to the copayer's wallet. -/
def jsOrElse (x : Option String) (dflt : String) : String :=
  match x with
  | none => dflt
  | some s => if s = "" then dflt else s

/-- The authenticated server context produced by `getInstanceWithAuth`. -/
structure AuthResult where
  walletId : String
  copayerIsSupportStaff : Bool
deriving DecidableEq, Repr

/-- The signature path of `WalletService.getInstanceWithAuth`
(lib/server.js): fetch the copayer lookup; missing copayer fails with
`NOT_AUTHORIZED Copayer not found`; a support-staff copayer skips signature
verification entirely and may select the wallet through `opts.walletId`;
anyone else must present a signature verifying under some key of the
request-public-key history, or fails with `NOT_AUTHORIZED Invalid
signature`. -/
def getInstanceWithAuth (verify : String → String → String → Bool)
    (lookup : Option CopayerLookup) (message signature : String)
    (optsWalletId : Option String) : Except ErrorCode AuthResult :=
  match lookup with
  | none => Except.error (ErrorCode.NOT_AUTHORIZED "Copayer not found")
  | some copayer =>
    if ¬copayer.isSupportStaff then
      if (getSigningKey verify message signature copayer.requestPubKeys).isNone then
        Except.error (ErrorCode.NOT_AUTHORIZED "Invalid signature")
      else Except.ok ⟨copayer.walletId, false⟩
    else Except.ok ⟨jsOrElse optsWalletId copayer.walletId, true⟩

/-- C10: for a support-staff copayer the request signature is never
verified — the outcome is identical under every verification oracle,
message and signature, authentication succeeds whenever the lookup exists,
and the served wallet id is the explicitly supplied one when given (and
non-empty); for everyone else authentication succeeds exactly when some key
in the request-public-key history verifies the signature, and otherwise
fails with `NOT_AUTHORIZED Invalid signature`. -/
theorem support_staff_auth (copayer : CopayerLookup) (optsWalletId : Option String) :
    (copayer.isSupportStaff = true →
      (∀ verify verify2 message message2 signature signature2,
        getInstanceWithAuth verify (some copayer) message signature optsWalletId =
        getInstanceWithAuth verify2 (some copayer) message2 signature2 optsWalletId) ∧
      (∀ verify message signature,
        getInstanceWithAuth verify (some copayer) message signature optsWalletId =
          Except.ok ⟨jsOrElse optsWalletId copayer.walletId, true⟩) ∧
      (∀ verify message signature w, optsWalletId = some w → w ≠ "" →
        getInstanceWithAuth verify (some copayer) message signature optsWalletId =
          Except.ok ⟨w, true⟩)) ∧
    (copayer.isSupportStaff = false →
      ∀ verify message signature,
        (getInstanceWithAuth verify (some copayer) message signature optsWalletId =
            Except.ok ⟨copayer.walletId, false⟩ ↔
          ∃ k ∈ copayer.requestPubKeys, verify message signature k = true) ∧
        ((¬∃ k ∈ copayer.requestPubKeys, verify message signature k = true) →
          getInstanceWithAuth verify (some copayer) message signature optsWalletId =
            Except.error (ErrorCode.NOT_AUTHORIZED "Invalid signature"))) := by
  constructor
  · intro hs
    refine ⟨?_, ?_, ?_⟩
    · intro verify verify2 message message2 signature signature2
      simp [getInstanceWithAuth, hs]
    · intro verify message signature
      simp [getInstanceWithAuth, hs]
    · intro verify message signature w hw hne
      subst hw
      simp [getInstanceWithAuth, hs, jsOrElse, hne]
  · intro hs verify message signature
    constructor
    · by_cases hk : (getSigningKey verify message signature copayer.requestPubKeys).isNone
      · simp only [getInstanceWithAuth, hs, Bool.not_eq_true, if_pos rfl, hk]
        constructor
        · intro hcontra; simp at hcontra
        · intro hcontra
          exfalso
          obtain ⟨k, hk1, hk2⟩ := hcontra
          simp only [getSigningKey, Option.isNone_iff_eq_none, List.find?_eq_none] at hk
          exact absurd hk2 (by simpa using hk k hk1)
      · simp only [getInstanceWithAuth, hs, Bool.not_eq_true, if_pos rfl, hk]
        constructor
        · intro _
          simp only [getSigningKey] at hk
          rw [Option.isNone_iff_eq_none] at hk
          rcases ho : List.find? (fun k => verify message signature k)
              copayer.requestPubKeys with - | k
          · exact absurd ho hk
          · refine ⟨k, List.mem_of_find?_eq_some ho, ?_⟩
            have := List.find?_some ho
            exact this
        · intro _
          simp [hk]
    · intro hnone
      have hk : (getSigningKey verify message signature copayer.requestPubKeys).isNone = true := by
        simp only [getSigningKey, Option.isNone_iff_eq_none, List.find?_eq_none]
        intro k hkmem
        simp only [Bool.not_eq_true]
        by_contra hcon
        exact hnone ⟨k, hkmem, by simpa using hcon⟩
      simp [getInstanceWithAuth, hs, hk]

/-- C10 witness: a concrete support-staff lookup authenticates under the
always-false oracle and serves the explicitly supplied wallet id. -/
theorem support_staff_auth_witness :
    getInstanceWithAuth (fun _ _ _ => false) (some ⟨"w0", ["k1"], true⟩) "msg" "sig"
      (some "w9") = Except.ok ⟨"w9", true⟩ := by
  exact ((support_staff_auth ⟨"w0", ["k1"], true⟩ (some "w9")).1 rfl).2.2
    (fun _ _ _ => false) "msg" "sig" "w9" rfl (by decide)

/-! ### Address gap limit (WalletService.prototype._canCreateAddress and
the gate in WalletService.prototype.createAddress) -/

/-- A stored address as seen by the gap check. -/
structure AddressRec where
  address : String
  isChange : Bool
  hasActivity : Bool
deriving DecidableEq, Repr

/-- `_.takeRight(xs, k)`: the last `k` elements. -/
def takeRight (l : List AddressRec) (k : Nat) : List AddressRec :=
  l.drop (l.length - k)

/-- The probe loop of `_canCreateAddress` (`async.whilst` decrementing `i`
from `latestAddresses.length`): probes the tail addresses newest first and
stops at the first one the explorer reports active. -/
def probeBack (oracle : String → Bool) (latest : List AddressRec) : Option AddressRec :=
  latest.reverse.find? (fun a => oracle a.address)

/-- `latestAddresses` in `_canCreateAddress`:
`_.takeRight(_.reject(addresses, { isChange: true }), MAX_MAIN_ADDRESS_GAP)`. -/
def mainTail (addresses : List AddressRec) : List AddressRec :=
  takeRight (addresses.filter (fun a => !a.isChange)) Defaults.MAX_MAIN_ADDRESS_GAP

/-- `WalletService.prototype._canCreateAddress`: `addresses` is the
wallet's stored address list in derivation order, `oracle` the explorer's
`getAddressActivity`.  Returns whether a new address may be created,
together with the probed address whose sticky `hasActivity` flag was set
and stored back, if any. -/
def canCreateAddress (oracle : String → Bool) (ignoreMaxGap : Bool)
    (addresses : List AddressRec) : Bool × Option AddressRec :=
  if ignoreMaxGap then (true, none)
  else
    if (mainTail addresses).length < Defaults.MAX_MAIN_ADDRESS_GAP ∨
        (mainTail addresses).any (fun a => a.hasActivity) then (true, none)
    else
      match probeBack oracle (mainTail addresses) with
      | none => (false, none)
      | some a => (true, some { a with hasActivity := true })

/-- The gap gate of `WalletService.prototype.createAddress`: `false` from
`_canCreateAddress` becomes `MAIN_ADDRESS_GAP_REACHED`; otherwise the call
proceeds (under the wallet lock) to create or return an address. -/
def createAddressGate (oracle : String → Bool) (ignoreMaxGap : Bool)
    (addresses : List AddressRec) : Except ErrorCode (Option AddressRec) :=
  match canCreateAddress oracle ignoreMaxGap addresses with
  | (false, _) => Except.error ErrorCode.MAIN_ADDRESS_GAP_REACHED
  | (true, marked) => Except.ok marked

/-- C6: with `ignoreMaxGap` the gap check is skipped entirely (same outcome
under every explorer oracle, never failing); when the last
`MAX_MAIN_ADDRESS_GAP` receive addresses all have `hasActivity = false`,
the engine probes the explorer on exactly those tail addresses — if none
reports activity the call fails with `MAIN_ADDRESS_GAP_REACHED`, and if
some reports activity, an active tail address is stored back with its
sticky `hasActivity` flag set to true and the call proceeds. -/
theorem gap_limit_policy (oracle : String → Bool) (addresses : List AddressRec) :
    (∀ oracle2,
      createAddressGate oracle2 true addresses = Except.ok none) ∧
    ((mainTail addresses).length = Defaults.MAX_MAIN_ADDRESS_GAP →
      (∀ a ∈ mainTail addresses, a.hasActivity = false) →
      ((∀ a ∈ mainTail addresses, oracle a.address = false) →
        createAddressGate oracle false addresses =
          Except.error ErrorCode.MAIN_ADDRESS_GAP_REACHED) ∧
      ((∃ a ∈ mainTail addresses, oracle a.address = true) →
        ∃ a, createAddressGate oracle false addresses = Except.ok (some a) ∧
          a.hasActivity = true ∧ oracle a.address = true)) := by
  constructor
  · intro oracle2
    simp [createAddressGate, canCreateAddress]
  · intro hlen hact
    have hcond : ¬((mainTail addresses).length < Defaults.MAX_MAIN_ADDRESS_GAP ∨
        (mainTail addresses).any (fun a => a.hasActivity) = true) := by
      rintro (h | h)
      · omega
      · rw [List.any_eq_true] at h
        obtain ⟨a, hmem, hh⟩ := h
        rw [hact a hmem] at hh
        exact absurd hh (by simp)
    constructor
    · intro hnone
      have hprobe : probeBack oracle (mainTail addresses) = none := by
        simp only [probeBack, List.find?_eq_none]
        intro a hmem
        rw [List.mem_reverse] at hmem
        simp [hnone a hmem]
      unfold createAddressGate canCreateAddress
      rw [if_neg (by simp), if_neg hcond, hprobe]
    · intro hsome
      obtain ⟨a0, hmem0, hora0⟩ := hsome
      have hex : (probeBack oracle (mainTail addresses)).isSome = true := by
        rw [probeBack, List.find?_isSome]
        exact ⟨a0, List.mem_reverse.mpr hmem0, hora0⟩
      rcases hp : probeBack oracle (mainTail addresses) with - | a
      · rw [hp] at hex; simp at hex
      · refine ⟨{ a with hasActivity := true }, ?_, rfl, ?_⟩
        · unfold createAddressGate canCreateAddress
          rw [if_neg (by simp), if_neg hcond, hp]
        · have := List.find?_some hp
          simpa using this

/-- C6 witness: twenty inactive receive addresses with an all-inactive
explorer make `createAddress` fail with `MAIN_ADDRESS_GAP_REACHED`. -/
theorem gap_limit_policy_witness :
    createAddressGate (fun _ => false) false
      (List.replicate 20 ⟨"addr", false, false⟩) =
      Except.error ErrorCode.MAIN_ADDRESS_GAP_REACHED := by
  exact ((gap_limit_policy (fun _ => false)
      (List.replicate 20 ⟨"addr", false, false⟩)).2 (by decide)
      (by decide)).1 (by decide)

/-! ### UTXO reservation (WalletService.prototype._getUtxosForCurrentWallet
and the availability recheck in WalletService.prototype.publishTx) -/

/-- A payment input of a draft unit.  Non-transfer inputs (issue,
headers-commission, witnessing) lack these fields, so each is optional; JS
truthiness is applied to them exactly where the source applies it. -/
structure PaymentInput where
  unit : Option String
  message_index : Option Nat
  output_index : Option Nat
deriving DecidableEq, Repr

/-- One message of a draft unit, restricted to what the reservation reads
(`message.app` and `message.payload.inputs`). -/
structure UnitMessage where
  app : String
  inputs : List PaymentInput
deriving DecidableEq, Repr

/-- A draft unit (`txp.unit`), restricted to its messages. -/
structure DraftUnit where
  messages : List UnitMessage
deriving DecidableEq, Repr

/-- JS truthiness of a possibly-absent string field. -/
def jsTruthyStr : Option String → Bool
  | none => false
  | some s => s ≠ ""

/-- JS truthiness of a possibly-absent number field: 0 is falsy. -/
def jsTruthyNat : Option Nat → Bool
  | none => false
  | some k => k ≠ 0

/-- JS string coercion of a possibly-absent string field. -/
def jsShowStr : Option String → String
  | none => "undefined"
  | some s => s

/-- JS string coercion of a possibly-absent number field. -/
def jsShowNat : Option Nat → String
  | none => "undefined"
  | some k => toString k

/-- `utxoKey(utxo)` as defined identically in `publishTx` and
`_getUtxosForCurrentWallet`:
`utxo.unit + '|' + utxo.message_index + '|' + utxo.output_index`. -/
def utxoKey (i : PaymentInput) : String :=
  jsShowStr i.unit ++ "|" ++ jsShowNat i.message_index ++ "|" ++ jsShowNat i.output_index

/-- A live UTXO as returned by the explorer: its reference fields are
always present. -/
structure LiveUtxo where
  unit : String
  message_index : Nat
  output_index : Nat
deriving DecidableEq, Repr

/-- `utxoKey` on an explorer row. -/
def liveKey (u : LiveUtxo) : String :=
  u.unit ++ "|" ++ toString u.message_index ++ "|" ++ toString u.output_index

/-- All `utxoKey`s of the payment inputs of a list of stored draft units
(the nested `_.each` loops over `txp.unit.messages` and
`message.payload.inputs` in `_getUtxosForCurrentWallet`). -/
def inputKeys (units : List DraftUnit) : List String :=
  (units.map (fun u =>
    ((u.messages.filter (fun msg => msg.app = "payment")).map
      (fun msg => msg.inputs.map utxoKey)).flatten)).flatten

/-- The reservation view computed by `_getUtxosForCurrentWallet` (explorer
keys assumed pairwise distinct, per the explorer contract): every live UTXO
referenced by a pending proposal is flagged `locked`; every one referenced
by a recently broadcast proposal (the storage query is bounded by the last
24 hours and the most recent 100 rows; its result is the `broadcasted`
argument) is flagged `spent` and dropped from the returned list.  Each
returned pair is `(utxo key, locked)`. -/
def utxoView (live : List LiveUtxo) (pending broadcasted : List DraftUnit) :
    List (String × Bool) :=
  (live.filter (fun u => !(inputKeys broadcasted).contains (liveKey u))).map
    (fun u => (liveKey u, (inputKeys pending).contains (liveKey u)))

/-- The availability recheck of `WalletService.prototype.publishTx`: an
input of the draft is collected for checking only when its `unit`,
`message_index` and `output_index` are all truthy
(`if (input.unit && input.message_index && input.output_index)` in the
source — an index of 0 is falsy in JS); the publish fails with
`UNAVAILABLE_UTXOS` when some collected key is absent from the view or
locked, and otherwise the proposal is stored with status 'pending'. -/
def publishTxCheck (draft : DraftUnit) (live : List LiveUtxo)
    (pending broadcasted : List DraftUnit) : Except ErrorCode TxStatus :=
  let txpInputs :=
    (((draft.messages.filter (fun msg => msg.app = "payment")).map
      (fun msg => msg.inputs.filter (fun i => jsTruthyStr i.unit &&
        jsTruthyNat i.message_index && jsTruthyNat i.output_index))).flatten).map utxoKey
  let view := utxoView live pending broadcasted
  let unavailable := txpInputs.any (fun k =>
    match view.find? (fun kv => kv.fst = k) with
    | none => true
    | some kv => kv.snd)
  if unavailable then Except.error ErrorCode.UNAVAILABLE_UTXOS
  else Except.ok TxStatus.pending

/-- C1 (code bug): the truthiness filter in `publishTx` skips every input
whose `message_index` or `output_index` is 0 — legal and common values
(the test data's own unit uses `message_index: 0, output_index: 0`).  At
the failing input below the draft spends a UTXO that a pending proposal of
the same wallet has locked, yet `publishTx` succeeds and the proposal
becomes pending, contradicting the claimed UNAVAILABLE_UTXOS failure and
the at-most-once-spend invariant (the repository's own test expects
`UNAVAILABLE_UTXOS` here).  The second and third conjuncts show the view
really marks that UTXO locked; the last shows that the same draft with
non-zero indices is refused, confirming the zero index is what disables
the check. -/
theorem publish_utxo_zero_index_bug :
    publishTxCheck ⟨[⟨"payment", [⟨some "u0", some 0, some 0⟩]⟩]⟩ [⟨"u0", 0, 0⟩]
        [⟨[⟨"payment", [⟨some "u0", some 0, some 0⟩]⟩]⟩] [] =
      Except.ok TxStatus.pending ∧
    utxoView [⟨"u0", 0, 0⟩] [⟨[⟨"payment", [⟨some "u0", some 0, some 0⟩]⟩]⟩] [] =
      [("u0|0|0", true)] ∧
    utxoKey ⟨some "u0", some 0, some 0⟩ = "u0|0|0" ∧
    publishTxCheck ⟨[⟨"payment", [⟨some "u0", some 1, some 1⟩]⟩]⟩ [⟨"u0", 1, 1⟩]
        [⟨[⟨"payment", [⟨some "u0", some 1, some 1⟩]⟩]⟩] [] =
      Except.error ErrorCode.UNAVAILABLE_UTXOS := by
  refine ⟨rfl, rfl, rfl, rfl⟩

/-! ### Stable-unit handling
(BlockchainMonitor.prototype._handleStableJoint) -/

/-- A `TxConfirmation` subscription record. -/
structure TxConfirmationSub where
  txid : String
  walletId : String
  copayerId : String
  isActive : Bool
deriving DecidableEq, Repr

/-- Lookup in `indexedSubs = _.keyBy(subs, 'txid')` (presence is what the
loop tests; on duplicate txids lodash keeps the last entry where `find?`
keeps the first — presence coincides). -/
def keyByTxid (subs : List TxConfirmationSub) (u : String) : Option TxConfirmationSub :=
  subs.find? (fun s => s.txid = u)

/-- The `triggered`-collection loop of `_handleStableJoint`:
`_.each(rows, function(row) { if (indexedSubs[row.unit]) triggered.push(indexedSubs[txid]); })`.
The module is strict-mode JS and `txid` is bound nowhere in the enclosing
scopes (blockchainmonitor.js line 563), so the moment a row matches an
active subscription, evaluating `indexedSubs[txid]` throws
`ReferenceError: txid is not defined`. -/
def buildTriggered (subs : List TxConfirmationSub) (rows : List String) :
    Except String (List TxConfirmationSub) :=
  match rows with
  | [] => Except.ok []
  | u :: rest =>
    match keyByTxid subs u with
    | some _ => Except.error "ReferenceError: txid is not defined"
    | none => buildTriggered subs rest

/-- `processTriggeredSubs`: deactivate each triggered subscription, store
it, and emit one `TxConfirmation` notification for it. -/
def processTriggeredSubs (triggered : List TxConfirmationSub) :
    List TxConfirmationSub × List String :=
  (triggered.map (fun s => { s with isActive := false }),
   triggered.map (fun s => "TxConfirmation:" ++ s.txid))

/-- The subscription phase of `_handleStableJoint` for one
`mci_became_stable` event: `rows` are the units stabilised at that MCI,
`subs` the active subscriptions.  Returns the deactivated subscriptions
and emitted notifications; on the thrown error nothing is emitted and no
subscription is deactivated. -/
def handleStableSubs (subs : List TxConfirmationSub) (rows : List String) :
    Except String (List TxConfirmationSub × List String) :=
  (buildTriggered subs rows).map processTriggeredSubs

/-- C9 (code bug): with one active subscription for unit "u1" and "u1"
becoming stable, the claimed behaviour is exactly one `TxConfirmation`
notification with the subscription deactivated; the code instead throws
`ReferenceError: txid is not defined` (unbound `txid` at
blockchainmonitor.js line 563, acknowledged in the repository's own open
questions), so no notification is emitted and the subscription stays
active.  With no matching subscription the phase completes emitting
nothing, confirming the throw happens exactly on a match. -/
theorem tx_confirmation_reference_error :
    handleStableSubs [⟨"u1", "w1", "c1", true⟩] ["u1"] =
      Except.error "ReferenceError: txid is not defined" ∧
    handleStableSubs [⟨"u1", "w1", "c1", true⟩] ["u2"] = Except.ok ([], []) := by
  refine ⟨rfl, rfl⟩

/-! ### Per-input signing (TxProposal.prototype._addSignaturesToUnit and
sign; guards from WalletService.prototype.signTx)

HD public-key derivation (`Bitcore.HDPublicKey(xpub).deriveChild(path)`,
rendered as a base64 public key) is abstracted as
`derive : xpub → path → pubkey`, ECDSA verification (`EcdsaSig.verify`) as
`verify : hash → sig → pubkey → Bool`; the theorems quantify over both.
JS objects keyed by strings are association lists looked up with
`List.lookup`. -/

/-- A unit author: address plus the authentifiers map
(signing path → signature) that signing fills in. -/
structure UnitAuthor where
  address : String
  authentifiers : List (String × String)
deriving DecidableEq, Repr

/-- One entry of `txp.signingInfo` for an author address:
`{walletId, path, signingPaths}` with `signingPaths : pubkey → signing path`. -/
structure SigningInfoEntry where
  walletId : String
  path : String
  signingPaths : List (String × String)
deriving DecidableEq, Repr

/-- A proposal as seen by `signTx`, restricted to the fields signing uses. -/
structure TxpSigning where
  status : TxStatus
  actions : List TxpAction
  authors : List UnitAuthor
  signingInfo : List (String × SigningInfoEntry)
  requiredSignatures : Nat
  requiredRejections : Nat
deriving DecidableEq, Repr

/-- The `cnt` check of `_addSignaturesToUnit`:
`_.countBy(signingInfo, addr => addr.walletId == walletId).true` is
`undefined` when no entry matches, and `Object.keys(signatures).length !=
undefined` is true in JS, so the check fails whenever no signing-info entry
belongs to the wallet, and otherwise fails iff the count differs from the
number of submitted signatures. -/
def cntCheckFails (signingInfo : List (String × SigningInfoEntry)) (walletId : String)
    (signatures : List (String × List (String × String))) : Bool :=
  let k := (signingInfo.filter (fun kv => kv.snd.walletId = walletId)).length
  if k = 0 then true else signatures.length ≠ k

/-- One iteration of the `_.each(self.unit.authors, ...)` loop in
`_addSignaturesToUnit`, for a single author: skip authors without a
submitted signature; otherwise derive the copayer's public key along the
author's path, resolve its signing path, verify the submitted signature and
write it into the author's authentifiers — any failure throws (the source's
`throw new Error('Wrong signature')`, or the TypeError from reading `.path`
of an absent signingInfo entry).  Returns the updated author and the
increment of `i`. -/
def processAuthor (derive : String → String → String)
    (verify : String → String → String → Bool) (hash xpub : String)
    (signingInfo : List (String × SigningInfoEntry))
    (signatures : List (String × List (String × String)))
    (author : UnitAuthor) : Except String (UnitAuthor × Nat) :=
  match signatures.lookup author.address with
  | none => Except.ok (author, 0)
  | some sigMap =>
    match signingInfo.lookup author.address with
    | none => Except.error "TypeError: signingInfo has no entry for author"
    | some entry =>
      let pubKey := derive xpub entry.path
      match entry.signingPaths.lookup pubKey with
      | none => Except.error "Wrong signature"
      | some spath =>
        match sigMap.lookup spath with
        | none => Except.error "Wrong signature"
        | some sig =>
          if verify hash sig pubKey then
            Except.ok ({ author with authentifiers := author.authentifiers ++ [(spath, sig)] }, 1)
          else Except.error "Wrong signature"

/-- The author loop of `_addSignaturesToUnit`, threading the updated
authors and the count `i` of applied signatures; the first throw aborts. -/
def addSigsLoop (derive : String → String → String)
    (verify : String → String → String → Bool) (hash xpub : String)
    (signingInfo : List (String × SigningInfoEntry))
    (signatures : List (String × List (String × String))) :
    List UnitAuthor → Except String (List UnitAuthor × Nat)
  | [] => Except.ok ([], 0)
  | a :: rest =>
    match processAuthor derive verify hash xpub signingInfo signatures a with
    | Except.error e => Except.error e
    | Except.ok (a2, d) =>
      match addSigsLoop derive verify hash xpub signingInfo signatures rest with
      | Except.error e => Except.error e
      | Except.ok (as, i) => Except.ok (a2 :: as, d + i)

/-- `TxProposal.prototype._addSignaturesToUnit`: the `cnt` check, the
author loop, and the final `i != Object.keys(signatures).length` check. -/
def addSignaturesToUnit (derive : String → String → String)
    (verify : String → String → String → Bool) (hash xpub walletId : String)
    (signingInfo : List (String × SigningInfoEntry)) (authors : List UnitAuthor)
    (signatures : List (String × List (String × String))) :
    Except String (List UnitAuthor) :=
  if cntCheckFails signingInfo walletId signatures then
    Except.error "Number of signatures does not match number of authors"
  else
    match addSigsLoop derive verify hash xpub signingInfo signatures authors with
    | Except.error e => Except.error e
    | Except.ok (authors2, i) =>
      if i ≠ signatures.length then Except.error "Wrong signatures"
      else Except.ok authors2

/-- `TxpSigning` variants of the status helpers of lib/model/txproposal.js. -/
def TxpSigning.isPending (t : TxpSigning) : Bool :=
  decide (¬(t.status = TxStatus.temporary ∨ t.status = TxStatus.broadcasted ∨
    t.status = TxStatus.rejected))

def TxpSigning.isAccepted (t : TxpSigning) : Bool :=
  decide (countType t.actions ActionType.accept ≠ 0 ∧
    t.requiredSignatures ≤ countType t.actions ActionType.accept)

def TxpSigning.isRejected (t : TxpSigning) : Bool :=
  decide (countType t.actions ActionType.reject ≠ 0 ∧
    t.requiredRejections ≤ countType t.actions ActionType.reject)

/-- The success path of `TxProposal.prototype.sign`: write the verified
authentifiers, push the accept action, and run `_updateStatus`. -/
def signApply (txp : TxpSigning) (authors2 : List UnitAuthor) (copayerId : String) :
    TxpSigning :=
  let t := { txp with authors := authors2,
                      actions := txp.actions ++ [⟨copayerId, ActionType.accept⟩] }
  if t.status ≠ TxStatus.pending then t
  else if t.isRejected then { t with status := TxStatus.rejected }
  else if t.isAccepted then { t with status := TxStatus.accepted }
  else t

/-- `WalletService.prototype.signTx`: the copayer-voted, pending and
already-accepted guards, then `txp.sign`; a `false` from `sign` (any throw
inside `_addSignaturesToUnit`) yields `BAD_SIGNATURES` and skips
`storage.storeTx`. -/
def signTx (derive : String → String → String)
    (verify : String → String → String → Bool) (hash xpub walletId copayerId : String)
    (txp : TxpSigning) (signatures : List (String × List (String × String))) :
    Except ErrorCode TxpSigning :=
  if (txp.actions.find? (fun a => a.copayerId = copayerId)).isSome then
    Except.error ErrorCode.COPAYER_VOTED
  else if txp.isPending = false then Except.error ErrorCode.TX_NOT_PENDING
  else if txp.isAccepted then Except.error ErrorCode.TX_ALREADY_ACCEPTED
  else
    match addSignaturesToUnit derive verify hash xpub walletId txp.signingInfo
        txp.authors signatures with
    | Except.error _ => Except.error ErrorCode.BAD_SIGNATURES
    | Except.ok authors2 => Except.ok (signApply txp authors2 copayerId)

/-- The stored proposal after a `signTx` call: only an `Except.ok` result
reaches `storage.storeTx`; on any error the stored record is untouched. -/
def storedAfterSignTx (derive : String → String → String)
    (verify : String → String → String → Bool) (hash xpub walletId copayerId : String)
    (txp : TxpSigning) (signatures : List (String × List (String × String))) :
    TxpSigning :=
  match signTx derive verify hash xpub walletId copayerId txp signatures with
  | Except.error _ => txp
  | Except.ok txp2 => txp2

/-- The claim's per-author verification condition, matching the source's
lookup chain: an author with a submitted signature is OK when its
signing-info entry exists, the public key derived from the copayer's xpub
along the author's path resolves to a signing path, a signature was
submitted for that path, and it verifies. -/
def authorSigOk (derive : String → String → String)
    (verify : String → String → String → Bool) (hash xpub : String)
    (signingInfo : List (String × SigningInfoEntry))
    (signatures : List (String × List (String × String)))
    (author : UnitAuthor) : Bool :=
  match signatures.lookup author.address with
  | none => true
  | some sigMap =>
    match signingInfo.lookup author.address with
    | none => false
    | some entry =>
      let pubKey := derive xpub entry.path
      match entry.signingPaths.lookup pubKey with
      | none => false
      | some spath =>
        match sigMap.lookup spath with
        | none => false
        | some sig => verify hash sig pubKey

/-- `processAuthor` succeeds exactly when `authorSigOk` holds. -/
theorem processAuthor_ok_iff (derive : String → String → String)
    (verify : String → String → String → Bool) (hash xpub : String)
    (signingInfo : List (String × SigningInfoEntry))
    (signatures : List (String × List (String × String))) (author : UnitAuthor) :
    (∃ x, processAuthor derive verify hash xpub signingInfo signatures author =
      Except.ok x) ↔
    authorSigOk derive verify hash xpub signingInfo signatures author = true := by
  unfold processAuthor authorSigOk
  cases h1 : signatures.lookup author.address with
  | none => simp
  | some sigMap =>
    cases h2 : signingInfo.lookup author.address with
    | none => simp
    | some entry =>
      simp only []
      cases h3 : entry.signingPaths.lookup (derive xpub entry.path) with
      | none => simp [h3]
      | some spath =>
        simp only [h3]
        cases h4 : sigMap.lookup spath with
        | none => simp [h4]
        | some sig =>
          simp only [h4]
          by_cases hv : verify hash sig (derive xpub entry.path) = true
          · simp [hv]
          · simp [hv]

/-- If the author loop completes, every author passed verification. -/
theorem addSigsLoop_ok_all (derive : String → String → String)
    (verify : String → String → String → Bool) (hash xpub : String)
    (signingInfo : List (String × SigningInfoEntry))
    (signatures : List (String × List (String × String)))
    (authors : List UnitAuthor) (res : List UnitAuthor × Nat)
    (h : addSigsLoop derive verify hash xpub signingInfo signatures authors =
      Except.ok res) :
    ∀ a ∈ authors, authorSigOk derive verify hash xpub signingInfo signatures a = true := by
  induction authors generalizing res with
  | nil => intro a ha; cases ha
  | cons a0 rest ih =>
    intro a ha
    unfold addSigsLoop at h
    rcases hp : processAuthor derive verify hash xpub signingInfo signatures a0 with e | x
    · rw [hp] at h; cases h
    · rw [hp] at h
      rcases List.mem_cons.mp ha with ha2 | ha2
      · subst ha2
        exact (processAuthor_ok_iff derive verify hash xpub signingInfo signatures a).mp ⟨x, hp⟩
      · rcases hl : addSigsLoop derive verify hash xpub signingInfo signatures rest with e | y
        · rw [hl] at h
          obtain ⟨a2, d⟩ := x
          cases h
        · obtain ⟨a2, d⟩ := x
          rw [hl] at h
          exact ih y hl a ha2

/-- C5: when the copayer has not yet acted and the proposal is pending and
not yet accepted, any failing submitted signature — or a signature count
that does not match the number of the wallet's authors — makes `signTx`
fail with `BAD_SIGNATURES`, and the stored proposal is exactly the old one:
no accept action is recorded and no authentifier is applied. -/
theorem signTx_bad_signatures_atomic (derive : String → String → String)
    (verify : String → String → String → Bool) (hash xpub walletId copayerId : String)
    (txp : TxpSigning) (signatures : List (String × List (String × String)))
    (hguard1 : (txp.actions.find? (fun a => a.copayerId = copayerId)).isSome = false)
    (hguard2 : txp.isPending = true)
    (hguard3 : txp.isAccepted = false)
    (hbad : cntCheckFails txp.signingInfo walletId signatures = true ∨
      ∃ a ∈ txp.authors,
        authorSigOk derive verify hash xpub txp.signingInfo signatures a = false) :
    signTx derive verify hash xpub walletId copayerId txp signatures =
      Except.error ErrorCode.BAD_SIGNATURES ∧
    storedAfterSignTx derive verify hash xpub walletId copayerId txp signatures = txp := by
  have hfail : ∀ e, addSignaturesToUnit derive verify hash xpub walletId txp.signingInfo
      txp.authors signatures = e → (∃ msg, e = Except.error msg) := by
    intro e he
    rcases hbad with hcnt | ⟨a, hmem, hbadA⟩
    · unfold addSignaturesToUnit at he
      rw [if_pos hcnt] at he
      exact ⟨_, he.symm⟩
    · unfold addSignaturesToUnit at he
      by_cases hcnt : cntCheckFails txp.signingInfo walletId signatures = true
      · rw [if_pos hcnt] at he
        exact ⟨_, he.symm⟩
      · rw [if_neg hcnt] at he
        rcases hl : addSigsLoop derive verify hash xpub txp.signingInfo signatures
            txp.authors with msg | y
        · rw [hl] at he
          exact ⟨msg, he.symm⟩
        · exfalso
          have hall := addSigsLoop_ok_all derive verify hash xpub txp.signingInfo
            signatures txp.authors y hl
          rw [hall a hmem] at hbadA
          exact absurd hbadA (by simp)
  obtain ⟨msg, hmsg⟩ := hfail _ rfl
  have hsig : signTx derive verify hash xpub walletId copayerId txp signatures =
      Except.error ErrorCode.BAD_SIGNATURES := by
    unfold signTx
    rw [if_neg (by simp [hguard1]), if_neg (by simp [hguard2]),
      if_neg (by simp [hguard3]), hmsg]
  refine ⟨hsig, ?_⟩
  unfold storedAfterSignTx
  rw [hsig]

/-- C5 witness: a concrete 1-of-1 signing where the single submitted
signature fails verification (the always-false oracle) is rejected with
`BAD_SIGNATURES` and leaves the proposal untouched. -/
theorem signTx_bad_signatures_witness :
    signTx (fun _ _ => "pk") (fun _ _ _ => false) "h" "xpub" "w" "c1"
      ⟨TxStatus.pending, [], [⟨"A", []⟩], [("A", ⟨"w", "m.0.0", [("pk", "r.0")]⟩)], 1, 1⟩
      [("A", [("r.0", "sig")])] = Except.error ErrorCode.BAD_SIGNATURES ∧
    storedAfterSignTx (fun _ _ => "pk") (fun _ _ _ => false) "h" "xpub" "w" "c1"
      ⟨TxStatus.pending, [], [⟨"A", []⟩], [("A", ⟨"w", "m.0.0", [("pk", "r.0")]⟩)], 1, 1⟩
      [("A", [("r.0", "sig")])] =
      ⟨TxStatus.pending, [], [⟨"A", []⟩], [("A", ⟨"w", "m.0.0", [("pk", "r.0")]⟩)], 1, 1⟩ := by
  exact signTx_bad_signatures_atomic (fun _ _ => "pk") (fun _ _ _ => false) "h" "xpub" "w" "c1"
    ⟨TxStatus.pending, [], [⟨"A", []⟩], [("A", ⟨"w", "m.0.0", [("pk", "r.0")]⟩)], 1, 1⟩
    [("A", [("r.0", "sig")])] (by decide) (by decide) (by decide)
    (Or.inr ⟨⟨"A", []⟩, by decide, by decide⟩)

end OWS
